import Mathlib

/-!
Verification of the Agentic Dialer application against its specification.

The development shallowly embeds the client page logic (phone normalization,
dial-record derivation, per-row script lookup, call triggering, sequential
queue dialing) and the server call-creation route (request validation,
voice-document construction with XML escaping, provider invocation).

Cell values read from the workbook are modelled as `Option String`
(`none` for a null/undefined cell, `some s` for the cell's JS string
conversion).  Record objects produced by the spread construction are
modelled as association lists of JavaScript values, with first-occurrence
lookup and JS object-spread key semantics.  Network effects are modelled
by an explicit outcome parameter and an event trace (status updates and
issued requests), so that ordering properties are provable.

TypeScript field names that are Lean keywords (`from`) are carried as
`fromVal`/`fromField`/`fromNumber`; everything else keeps its source name.
-/

namespace AgenticDialer

/-! ## String primitives (JS semantics) -/

/-- Whitespace test backing the embedded JS `trim` (space, tab, CR, LF). -/
def isJsWhitespace (c : Char) : Bool :=
  c == ' ' || c == '\t' || c == '\n' || c == '\r'

/-- Embedding of JavaScript `String.prototype.trim`. -/
def jsTrim (s : String) : String :=
  ⟨((s.data.dropWhile isJsWhitespace).reverse.dropWhile isJsWhitespace).reverse⟩

/-- Embedding of JavaScript `String.prototype.toLowerCase` (ASCII range). -/
def jsToLower (s : String) : String :=
  ⟨s.data.map Char.toLower⟩

/-- Embedding of JavaScript `String.prototype.includes`. -/
def containsSub (s sub : String) : Bool :=
  decide (sub.data <:+: s.data)

/-- `s.startsWith(c)` for a one-character pattern: the first character is `c`. -/
def startsWithChar (s : String) (c : Char) : Bool :=
  s.data.head? == some c

/-- Keep exactly the characters satisfying `p` (a JS global-replace with ""). -/
def filterChars (p : Char → Bool) (s : String) : String :=
  ⟨s.data.filter p⟩

/-- Character class of the regex `[^\d+]` complement: digit or plus sign. -/
def isDigitOrPlus (c : Char) : Bool :=
  c.isDigit || c == '+'

/-- Character class used by `replace(/[+]/g, '')`: everything but `+`. -/
def notPlus (c : Char) : Bool :=
  !(c == '+')

/-! ## Phone Normalizer -/

/-- Embedding of `normalizePhone` from the client page: nullish cells give
the empty string; a trimmed value that starts with `+` keeps `+` plus its
digits; otherwise the digit string gets `+` for 11 digits starting `1`,
`+1` for 10 digits, and is returned bare in all other cases. -/
def normalizePhone (value : Option String) : String :=
  match value with
  | none => ""
  | some v =>
    let raw := jsTrim v
    if raw == "" then ""
    else
      let preservedPlus := startsWithChar raw '+'
      let digits := filterChars isDigitOrPlus raw
      if preservedPlus then "+" ++ filterChars notPlus digits
      else
        let numeric := filterChars notPlus digits
        if numeric.data.length == 11 && startsWithChar numeric '1' then
          "+" ++ numeric
        else if numeric.data.length == 10 then "+1" ++ numeric
        else if startsWithChar numeric '+' then numeric
        else numeric

/-- The Phone Normalizer exactly as claim C2 words it: empty for
nullish/blank input; `+` plus the digits for input whose trimmed text
starts with `+`; otherwise, with non-digits stripped, `+` for exactly 11
digits starting with `1`, `+1` for exactly 10 digits, else the bare
digit string. -/
def normalizePhoneClaim (value : Option String) : String :=
  match value with
  | none => ""
  | some v =>
    let raw := jsTrim v
    if raw == "" then ""
    else if startsWithChar raw '+' then "+" ++ filterChars Char.isDigit raw
    else
      let d := filterChars Char.isDigit raw
      if d.data.length == 11 && startsWithChar d '1' then "+" ++ d
      else if d.data.length == 10 then "+1" ++ d
      else d

/-! ## Rows, record objects and dial-record derivation -/

/-- A JavaScript value as it occurs in a dial record: a string, a number
(only `rowIndex` is numeric here), or a nullish cell. -/
inductive JsVal where
  | vstr (s : String)
  | vnum (n : Nat)
  | vnull
deriving DecidableEq, Repr

/-- A parsed workbook row: named cells in worksheet order.  A cell is
`none` when null/undefined and `some s` for its string conversion. -/
abbrev Row : Type := List (String × Option String)

/-- A dial-record object: JS object modelled as an association list with
first-occurrence lookup. -/
abbrev Obj : Type := List (String × JsVal)

/-- Cell access `row[col]`: an absent column and a null cell both read as
nullish. -/
def rowLookup (row : Row) (col : String) : Option String :=
  match List.find? (fun p => p.1 == col) row with
  | some p => p.2
  | none => none

/-- A row cell as a JS value, as carried into the record by `...row`. -/
def cellToVal : Option String → JsVal
  | none => JsVal.vnull
  | some s => JsVal.vstr s

/-- The `...row` payload of the spread: every cell as a JS value. -/
def rowToObj (row : Row) : Obj :=
  row.map (fun p => (p.1, cellToVal p.2))

/-- Property lookup on a record object. -/
def objGet (o : Obj) (k : String) : Option JsVal :=
  (List.find? (fun p => p.1 == k) o).map (fun p => p.2)

/-- The keys of an object, in insertion order. -/
def objKeys (o : Obj) : List String :=
  o.map (fun p => p.1)

/-- JS object-spread `{...base, ...extra}`: keys of `base` keep their
position but take the value from `extra` when `extra` also has the key;
keys only in `extra` are appended in order. -/
def spreadObj (base extra : Obj) : Obj :=
  (base.map (fun p =>
    match List.find? (fun q => q.1 == p.1) extra with
    | some q => (p.1, q.2)
    | none => p))
  ++ extra.filter (fun q => !((objKeys base).contains q.1))

/-- `String(rawCell ?? '').trim() || fallback` from the record builder. -/
def displayOr (raw : Option String) (fallback : String) : String :=
  let d := jsTrim (raw.getD "")
  if d == "" then fallback else d

/-- The six derived fields a dial record starts from. -/
def derivedKeys : List String :=
  ["id", "from", "to", "displayFrom", "displayTo", "rowIndex"]

/-- The six derived fields of a dial record, before the row spread. -/
def dialBase (row : Row) (index : Nat) (fromCol toCol : String) : Obj :=
  let rawFrom := rowLookup row fromCol
  let rawTo := rowLookup row toCol
  [("id", JsVal.vstr ("row-" ++ toString index)),
   ("from", JsVal.vstr (normalizePhone rawFrom)),
   ("to", JsVal.vstr (normalizePhone rawTo)),
   ("displayFrom", JsVal.vstr (displayOr rawFrom (normalizePhone rawFrom))),
   ("displayTo", JsVal.vstr (displayOr rawTo (normalizePhone rawTo))),
   ("rowIndex", JsVal.vnum (index + 1))]

/-- The object literal built for one kept row in `dialRecords`: the six
derived fields, then the row spread over them. -/
def mkDialObj (row : Row) (index : Nat) (fromCol toCol : String) : Obj :=
  spreadObj (dialBase row index fromCol toCol) (rowToObj row)

/-- The per-row body of `dialRecords`: null when either normalized number
is empty, otherwise the spread record object. -/
def buildRecord (row : Row) (index : Nat) (fromCol toCol : String) :
    Option Obj :=
  if normalizePhone (rowLookup row fromCol) == ""
      || normalizePhone (rowLookup row toCol) == "" then none
  else some (mkDialObj row index fromCol toCol)

/-- `dialRecords`: map each row with its index to a candidate record and
drop the nulls. -/
def dialRecords (rows : List Row) (fromCol toCol : String) : List Obj :=
  (rows.mapIdx (fun i row => buildRecord row i fromCol toCol)).filterMap id

/-- Whether a row survives dial-record derivation. -/
def keepRow (fromCol toCol : String) (row : Row) : Bool :=
  !(normalizePhone (rowLookup row fromCol) == "")
    && !(normalizePhone (rowLookup row toCol) == "")

/-! ## Per-row script lookup and resolution -/

/-- Keys whose presence in a column name selects a per-row script. -/
def preferredKeys : List String :=
  ["script", "message", "notes", "prompt"]

/-- The column-name test in `findRowScript`: the trimmed, lower-cased name
contains one of the preferred keys. -/
def keyMatches (k : String) : Bool :=
  preferredKeys.any (fun c => containsSub (jsToLower (jsTrim k)) c)

/-- `String(value ?? '')`: display conversion of a record value. -/
def jsDisplayString : JsVal → String
  | JsVal.vstr s => s
  | JsVal.vnum n => toString n
  | JsVal.vnull => ""

/-- Embedding of `findRowScript`: scan the record's entries in order and
return the first trimmed, non-empty text under a matching column name. -/
def findRowScript : Obj → Option String
  | [] => none
  | (k, v) :: rest =>
    if keyMatches k then
      let text := jsTrim (jsDisplayString v)
      if text == "" then findRowScript rest else some text
    else findRowScript rest

/-- Cell display text `String(cell ?? '')`. -/
def cellDisplay (c : Option String) : String := c.getD ""

/-- Script-resolution step (1) as claim C7 words it: the first row field
whose column name case-insensitively contains a preferred key and whose
trimmed text is non-empty, yielding that text. -/
def findRowScriptClaim : Row → Option String
  | [] => none
  | (k, c) :: rest =>
    if keyMatches k && !(jsTrim (cellDisplay c) == "") then
      some (jsTrim (cellDisplay c))
    else findRowScriptClaim rest

/-- JS `a || b` for an optional string `a`. -/
def jsOrStr (a : Option String) (b : String) : String :=
  match a with
  | some s => if s == "" then b else s
  | none => b

/-- The script put into the call payload:
`findRowScript(record) || scriptOverride.trim()`. -/
def resolveScript (record : Obj) (scriptOverride : String) : String :=
  jsOrStr (findRowScript record) (jsTrim scriptOverride)

/-! ## Call status machinery -/

/-- A call status. -/
inductive Status where
  | idle
  | calling
  | success
  | error
deriving DecidableEq, Repr

/-- A `CallResult` entry of the status map. -/
structure CallResult where
  status : Status
  message : String
  sid : Option String
  timestamp : Nat
deriving DecidableEq, Repr

/-- An update passed to `setCallStatus`: `sid = none` means the `sid` key
is absent from the update, so the previous `sid` survives the merge. -/
structure CallUpdate where
  status : Status
  message : String
  sid : Option (Option String)
deriving DecidableEq, Repr

/-- The session status map, keyed by record id. -/
abbrev StatusMap : Type := List (String × CallResult)

/-- `{...previous, [id]: next}`: replace in place or append. -/
def mapSet (sm : StatusMap) (k : String) (v : CallResult) : StatusMap :=
  if sm.any (fun p => p.1 == k) then
    sm.map (fun p => if p.1 == k then (k, v) else p)
  else sm ++ [(k, v)]

/-- `statusMap[id]`. -/
def lookupStatus (sm : StatusMap) (k : String) : Option CallResult :=
  (List.find? (fun p => p.1 == k) sm).map (fun p => p.2)

/-- `statusMap[id]?.status`. -/
def statusOf (sm : StatusMap) (k : String) : Option Status :=
  (lookupStatus sm k).map (fun r => r.status)

/-- The merge performed by `setCallStatus`: status and message are always
overwritten, `sid` only when the update carries the key. -/
def mergeResult (old : Option CallResult) (u : CallUpdate) (t : Nat) :
    CallResult :=
  { status := u.status
    message := u.message
    sid := match u.sid with
      | some s => s
      | none => old.bind (fun r => r.sid)
    timestamp := t }

/-! ## Call Trigger and Queue Dialer -/

/-- Property access with JS missing-property defaulting. -/
def recField (r : Obj) (k : String) : JsVal :=
  (objGet r k).getD JsVal.vnull

/-- JS falsiness of a record value. -/
def jsFalsy : JsVal → Bool
  | JsVal.vstr s => s == ""
  | JsVal.vnum n => n == 0
  | JsVal.vnull => true

/-- JS string coercion used when a value indexes an object. -/
def jsKeyString : JsVal → String
  | JsVal.vstr s => s
  | JsVal.vnum n => toString n
  | JsVal.vnull => "null"

/-- `record.id` as a status-map key. -/
def recIdStr (r : Obj) : String :=
  match objGet r "id" with
  | some v => jsKeyString v
  | none => "undefined"

/-- The JSON payload `fetch('/api/call', ...)` sends. -/
structure Payload where
  fromVal : JsVal
  toVal : JsVal
  script : String
deriving DecidableEq, Repr

/-- The observable outcome of the fetch: a 2xx response with parsed body
(optional `sid`), a non-2xx response (optional parsed `error` text), or a
thrown error (network failure or unparseable success body). -/
inductive FetchOutcome where
  | ok (sid : Option String)
  | httpErr (errText : Option String)
  | netErr (msg : String)
deriving DecidableEq, Repr

/-- One observable step of a call operation. -/
inductive Event where
  | statusSet (id : String) (u : CallUpdate)
  | request (p : Payload)
  | pause (ms : Nat)
deriving DecidableEq, Repr

/-- The payload built inside `triggerCall`. -/
def payloadOf (scriptOverride : String) (r : Obj) : Payload :=
  { fromVal := recField r "from"
    toVal := recField r "to"
    script := resolveScript r scriptOverride }

/-- Embedding of `triggerCall` as its event trace: the missing-numbers
guard short-circuits to an error status; otherwise status goes to
`calling`, the request is issued, and the outcome decides the final
status update. -/
def triggerCallEvents (outcome : FetchOutcome) (scriptOverride : String)
    (r : Obj) : List Event :=
  let id := recIdStr r
  if jsFalsy (recField r "from") || jsFalsy (recField r "to") then
    [Event.statusSet id ⟨Status.error, "Missing phone numbers", none⟩]
  else
    Event.statusSet id ⟨Status.calling, "Dialing...", none⟩ ::
    Event.request (payloadOf scriptOverride r) ::
    [match outcome with
     | FetchOutcome.ok sid =>
        Event.statusSet id ⟨Status.success,
          (match sid with
           | some s => "Call queued (SID: " ++ s ++ ")"
           | none => "Call queued"), some sid⟩
     | FetchOutcome.httpErr e =>
        Event.statusSet id ⟨Status.error, e.getD "Call failed", none⟩
     | FetchOutcome.netErr m =>
        Event.statusSet id ⟨Status.error, m, none⟩]

/-- Interpretation of one event against the status map; `t` is the clock
supplying `Date.now()`. -/
def applyEvent (t : Nat) (sm : StatusMap) : Event → StatusMap
  | Event.statusSet id u => mapSet sm id (mergeResult (lookupStatus sm id) u t)
  | Event.request _ => sm
  | Event.pause _ => sm

/-- Interpretation of an event trace, advancing the clock per event. -/
def applyEvents : Nat → StatusMap → List Event → StatusMap
  | _, sm, [] => sm
  | t, sm, e :: es => applyEvents (t + 1) (applyEvent t sm e) es

/-- The network requests contained in a trace, in order. -/
def requestsOf (evs : List Event) : List Payload :=
  evs.filterMap (fun e => match e with
    | Event.request p => some p
    | Event.statusSet _ _ => none
    | Event.pause _ => none)

/-- Embedding of the `handleDialAll` loop body: one pass over the current
records, skipping those the (stale) status-map snapshot marks `success`,
appending each triggered call's events followed by the fixed
`delay(1500)` pause. -/
def handleDialAllEvents (outcome : Obj → FetchOutcome)
    (scriptOverride : String) (sm0 : StatusMap) (records : List Obj) :
    List Event :=
  records.foldl (fun evs r =>
    if statusOf sm0 (recIdStr r) == some Status.success then evs
    else
      evs ++ (triggerCallEvents (outcome r) scriptOverride r
        ++ [Event.pause 1500])) []

/-- The events one record contributes to a queue run: nothing when the
snapshot marks it `success`, otherwise its triggered call plus the pause. -/
def dialStep (outcome : Obj → FetchOutcome) (scriptOverride : String)
    (sm0 : StatusMap) (r : Obj) : List Event :=
  if statusOf sm0 (recIdStr r) == some Status.success then []
  else triggerCallEvents (outcome r) scriptOverride r ++ [Event.pause 1500]

/-- `handleDialAll` with its re-entrancy guard: a no-op when a run is in
progress, otherwise the interpreted queue run. -/
def handleDialAll (outcome : Obj → FetchOutcome) (scriptOverride : String)
    (records : List Obj) (sm0 : StatusMap) (isAutoDialing : Bool)
    (now : Nat) : StatusMap × List Payload :=
  if isAutoDialing then (sm0, [])
  else
    let evs := handleDialAllEvents outcome scriptOverride sm0 records
    (applyEvents now sm0 evs, requestsOf evs)

/-! ## Status-transition relations -/

/-- The transition relation exactly as claim C6 words it:
`idle → calling → {success, error}` plus redial back to `calling`. -/
def claimTransition (old : Option Status) (next : Status) : Bool :=
  match old.getD Status.idle, next with
  | Status.idle, Status.calling => true
  | Status.calling, Status.success => true
  | Status.calling, Status.error => true
  | Status.success, Status.calling => true
  | Status.error, Status.calling => true
  | _, _ => false

/-- The transition relation the code actually guarantees: additionally,
the missing-numbers guard moves a record to `error` from any status. -/
def okTransition (old : Option Status) (next : Status) : Bool :=
  match next with
  | Status.calling => !(old == some Status.calling)
  | Status.success => old == some Status.calling
  | Status.error => true
  | Status.idle => false

/-- Check every status update of a trace against a transition relation,
tracking the evolving status map. -/
def traceValidWith (rel : Option Status → Status → Bool) :
    Nat → StatusMap → List Event → Bool
  | _, _, [] => true
  | t, sm, Event.request _ :: es => traceValidWith rel (t + 1) sm es
  | t, sm, Event.pause _ :: es => traceValidWith rel (t + 1) sm es
  | t, sm, Event.statusSet id u :: es =>
      rel (statusOf sm id) u.status &&
        traceValidWith rel (t + 1)
          (applyEvent t sm (Event.statusSet id u)) es

/-- No entry of the map is stuck in `calling` (true of every stable UI
state: each triggered call settles to `success` or `error`). -/
def noCallingB (sm : StatusMap) : Bool :=
  sm.all (fun p => !(p.2.status == Status.calling))

/-! ## Server call-creation route -/

/-- JS global single-character replace, the shape of every step of
`escapeForTwiml`. -/
def replaceChar (c : Char) (rep : String) (s : String) : String :=
  ⟨s.data.flatMap (fun ch => if ch == c then rep.data else [ch])⟩

/-- The apostrophe character (spelled by code point). -/
def aposChar : Char := Char.ofNat 39

/-- Embedding of `escapeForTwiml`: the five XML metacharacters in the
source's replacement order (`&` first). -/
def escapeForTwiml (s : String) : String :=
  replaceChar aposChar "&apos;"
    (replaceChar '"' "&quot;"
      (replaceChar '>' "&gt;"
        (replaceChar '<' "&lt;"
          (replaceChar '&' "&amp;" s))))

/-- The minimal speak-this-text document. -/
def speakDoc (s : String) : String :=
  "<Response><Say>" ++ escapeForTwiml s ++ "</Say></Response>"

/-- The provider environment; an empty string models an unset variable
(both read as falsy in the route). -/
structure TwilioEnv where
  accountSid : String
  authToken : String
  voiceUrl : String
  fallbackMessage : String
  statusCallbackUrl : String
deriving DecidableEq, Repr

/-- Embedding of `buildTwiml`. -/
def buildTwiml (env : TwilioEnv) (script : Option String) : Option String :=
  let trimmed := (script.map jsTrim).getD ""
  if trimmed == "" then
    if env.fallbackMessage == "" then none
    else some (speakDoc env.fallbackMessage)
  else some (speakDoc trimmed)

/-- A parsed request body (fields may be absent at runtime). -/
structure CallRequest where
  fromField : Option String
  toField : Option String
  script : Option String
deriving DecidableEq, Repr

/-- The argument object handed to `client.calls.create`. -/
structure CallParams where
  toNumber : String
  fromNumber : String
  url : Option String
  twiml : Option String
  statusCallback : String
  statusCallbackEvents : List String
deriving DecidableEq, Repr

/-- The provider-call arguments the route builds for a validated body. -/
def callParamsOf (env : TwilioEnv) (p : CallRequest) : CallParams :=
  { toNumber := jsTrim (p.toField.getD "")
    fromNumber := jsTrim (p.fromField.getD "")
    url := if !(env.voiceUrl == "") && (p.script.getD "" == "") then
        some env.voiceUrl
      else none
    twiml := buildTwiml env p.script
    statusCallback := env.statusCallbackUrl
    statusCallbackEvents := ["initiated", "ringing", "answered", "completed"] }

/-- A JSON response body of the route. -/
inductive RespBody where
  | okSid (sid : String)
  | err (msg : String)
deriving DecidableEq, Repr

/-- An HTTP response of the route. -/
structure ApiResponse where
  status : Nat
  body : RespBody
deriving DecidableEq, Repr

/-- Whether a response body has the `{error: string}` shape. -/
def isErrBody : RespBody → Bool
  | RespBody.err _ => true
  | RespBody.okSid _ => false

/-- Embedding of the route's `POST` handler.  `body = none` models an
unparseable JSON body; `provider` models the provider client, returning
a call sid or an error message. -/
def postRoute (env : TwilioEnv) (body : Option CallRequest)
    (provider : CallParams → Except String String) : ApiResponse :=
  if env.accountSid == "" || env.authToken == "" then
    ⟨500, RespBody.err "Missing Twilio credentials"⟩
  else
    match body with
    | none => ⟨400, RespBody.err "Invalid JSON body"⟩
    | some payload =>
      let fromTrimmed := (payload.fromField.map jsTrim).getD ""
      let toTrimmed := (payload.toField.map jsTrim).getD ""
      if fromTrimmed == "" || toTrimmed == "" then
        ⟨400, RespBody.err "Both `from` and `to` numbers are required"⟩
      else
        match provider (callParamsOf env payload) with
        | Except.ok sid => ⟨200, RespBody.okSid sid⟩
        | Except.error msg => ⟨500, RespBody.err msg⟩

/-- The voice-instruction pair (url, twiml) exactly as claim C9 words the
resolution: a present script yields only the escaped document, otherwise
the configured URL is used, or else the escaped fallback document, or
else nothing. -/
def claimNineVoice (env : TwilioEnv) (script : Option String) :
    Option String × Option String :=
  let trimmed := (script.map jsTrim).getD ""
  if !(trimmed == "") then (none, some (speakDoc trimmed))
  else if !(env.voiceUrl == "") then (some env.voiceUrl, none)
  else if !(env.fallbackMessage == "") then
    (none, some (speakDoc env.fallbackMessage))
  else (none, none)

/-- The voice-instruction pair (url, twiml) as the amended claim C9 words
it: a non-blank script yields only the escaped speak document; with the
script absent or blank, the URL is passed whenever configured and,
independently, the fallback document whenever configured (both are passed
when both are configured); otherwise nothing is sent. -/
def amendedNineVoice (env : TwilioEnv) (script : Option String) :
    Option String × Option String :=
  ((if !(env.voiceUrl == "") && (script.getD "" == "") then
      some env.voiceUrl
    else none),
   (let trimmed := (script.map jsTrim).getD ""
    if trimmed == "" then
      if env.fallbackMessage == "" then none
      else some (speakDoc env.fallbackMessage)
    else some (speakDoc trimmed)))

/-! ## Theorems -/

lemma notPlus_and_isDigitOrPlus (c : Char) :
    (notPlus c && isDigitOrPlus c) = c.isDigit := by
  by_cases h : c = '+'
  · subst h; rfl
  · have hb : (c == '+') = false := by simpa using h
    simp [notPlus, isDigitOrPlus, hb]

lemma filterChars_notPlus_isDigitOrPlus (s : String) :
    filterChars notPlus (filterChars isDigitOrPlus s) =
      filterChars Char.isDigit s := by
  simp [filterChars, List.filter_filter, notPlus_and_isDigitOrPlus]

/-- C2: the Phone Normalizer agrees with the claimed algorithm on every
input cell value: empty for nullish or blank input, `+` plus the digits
when the trimmed text starts with `+`, and otherwise `+`/`+1`/bare
prefixes by digit count. -/
theorem C2_normalizePhone (v : Option String) :
    normalizePhone v = normalizePhoneClaim v := by
  cases v with
  | none => rfl
  | some s =>
    show (if jsTrim s == "" then "" else _) = (if jsTrim s == "" then "" else _)
    by_cases h0 : jsTrim s == ""
    · simp [h0]
    · simp only [h0, if_false, Bool.false_eq_true]
      by_cases h1 : startsWithChar (jsTrim s) '+'
      · simp [h1, filterChars_notPlus_isDigitOrPlus]
      · simp only [h1, if_false, Bool.false_eq_true,
          filterChars_notPlus_isDigitOrPlus]
        by_cases h2 : (filterChars Char.isDigit (jsTrim s)).data.length == 11
          && startsWithChar (filterChars Char.isDigit (jsTrim s)) '1'
        · simp [h2]
        · simp only [h2, if_false, Bool.false_eq_true]
          by_cases h3 : (filterChars Char.isDigit (jsTrim s)).data.length == 10
          · simp [h3]
          · simp [h3, ite_self]

example : normalizePhone (some "5550004444") = "+15550004444" := by decide
example : normalizePhone (some " +1 (555) 000-4444 ") = "+15550004444" := by
  decide
example : normalizePhone (some "14445556666") = "+14445556666" := by decide
example : normalizePhone (some "123") = "123" := by decide
example : normalizePhone none = "" := by decide

lemma buildRecord_eq_ite (row : Row) (i : Nat) (f t : String) :
    buildRecord row i f t =
      if keepRow f t row then some (mkDialObj row i f t) else none := by
  unfold buildRecord keepRow
  by_cases hf : normalizePhone (rowLookup row f) == ""
  · simp [hf]
  · by_cases ht : normalizePhone (rowLookup row t) == "" <;>
      simp [hf, ht]

lemma filterMap_enum_buildRecord (f t : String) :
    ∀ ps : List (Nat × Row),
      ps.filterMap (fun p => buildRecord p.2 p.1 f t) =
        (ps.filter (fun p => keepRow f t p.2)).map
          (fun p => mkDialObj p.2 p.1 f t) := by
  intro ps
  induction ps with
  | nil => rfl
  | cons p ps ih =>
    simp only [List.filterMap_cons, List.filter_cons, buildRecord_eq_ite]
      at ih ⊢
    by_cases h : keepRow f t p.2
    · simp [h, ih]
    · simp [h, ih]

lemma length_filter_split (p : Row → Bool) (rows : List Row) :
    (rows.filter p).length + (rows.filter (fun r => !(p r))).length =
      rows.length := by
  induction rows with
  | nil => rfl
  | cons r rs ih =>
    by_cases h : p r
    · simp [List.filter_cons, h, ← ih]; omega
    · simp [List.filter_cons, h, ← ih]; omega

lemma length_filter_enum (p : Row → Bool) :
    ∀ (n : Nat) (rows : List Row),
      ((rows.enumFrom n).filter (fun q => p q.2)).length =
        (rows.filter p).length := by
  intro n rows
  induction rows generalizing n with
  | nil => rfl
  | cons r rs ih =>
    by_cases h : p r
    · simp [List.enumFrom, List.filter_cons, h, ih]
    · simp [List.enumFrom, List.filter_cons, h, ih]

/-- C1: dial-record derivation.  (a) a row yields a record exactly when
both its normalized numbers are non-empty (no partial records); (b) the
record list is the in-order image of the kept rows (original order
preserved, one record per kept row); (c) the input row count is the
dialable count plus the excluded count. -/
theorem C1_dialRecords (rows : List Row) (f t : String) :
    (∀ row i, (buildRecord row i f t).isSome = true ↔
        (normalizePhone (rowLookup row f) ≠ "" ∧
         normalizePhone (rowLookup row t) ≠ ""))
    ∧ dialRecords rows f t =
        ((rows.enum.filter (fun p => keepRow f t p.2)).map
          (fun p => mkDialObj p.2 p.1 f t))
    ∧ rows.length =
        (dialRecords rows f t).length +
          (rows.filter (fun row => !(keepRow f t row))).length := by
  have hrec : dialRecords rows f t =
      ((rows.enum.filter (fun p => keepRow f t p.2)).map
        (fun p => mkDialObj p.2 p.1 f t)) := by
    unfold dialRecords
    rw [List.mapIdx_eq_enum_map]
    have h1 : List.filterMap id
        (List.map (Function.uncurry fun i row => buildRecord row i f t)
          rows.enum) =
        List.filterMap (fun p => buildRecord p.2 p.1 f t) rows.enum := by
      rw [List.filterMap_map]; rfl
    rw [h1, filterMap_enum_buildRecord f t rows.enum]
  refine ⟨?_, hrec, ?_⟩
  · intro row i
    rw [buildRecord_eq_ite]
    by_cases h : keepRow f t row
    · simp only [h, if_true]
      constructor
      · intro _
        unfold keepRow at h
        constructor
        · intro hc
          simp [hc] at h
        · intro hc
          simp [hc] at h
      · intro _; rfl
    · simp only [h, if_false]
      constructor
      · intro hs; cases hs
      · intro ⟨hf', ht'⟩
        exfalso; apply h
        unfold keepRow
        have hf2 : (normalizePhone (rowLookup row f) == "") = false := by
          simpa using hf'
        have ht2 : (normalizePhone (rowLookup row t) == "") = false := by
          simpa using ht'
        simp [hf2, ht2]
  · rw [hrec]
    rw [List.length_map]
    have he : ((rows.enum.filter (fun p => keepRow f t p.2)).length) =
        (rows.filter (keepRow f t)).length := by
      simpa [List.enum] using length_filter_enum (keepRow f t) 0 rows
    rw [he]
    exact (length_filter_split (keepRow f t) rows).symm

lemma find?_append_eq {α : Type} (p : α → Bool) (a b : List α) :
    List.find? p (a ++ b) =
      match List.find? p a with
      | some x => some x
      | none => List.find? p b := by
  induction a with
  | nil => rfl
  | cons x a ih =>
    by_cases h : p x
    · simp [List.find?_cons, h]
    · simp [List.find?_cons, h, ih]

lemma find_rowToObj (row : Row) (k : String) :
    List.find? (fun q => q.1 == k) (rowToObj row) =
      (List.find? (fun p => p.1 == k) row).map
        (fun p => (p.1, cellToVal p.2)) := by
  induction row with
  | nil => rfl
  | cons p ps ih =>
    by_cases h : p.1 == k
    · simp [rowToObj, List.find?_cons, h]
    · simp only [rowToObj, List.map_cons, List.find?_cons, h] at ih ⊢
      simpa [rowToObj] using ih

lemma find_mapped_base (base extra : Obj) (k : String) (v : JsVal)
    (hfind : List.find? (fun q => q.1 == k) extra = some (k, v))
    (hbk : k ∈ objKeys base) :
    List.find? (fun p => p.1 == k)
      (base.map (fun p =>
        match List.find? (fun q => q.1 == p.1) extra with
        | some q => (p.1, q.2)
        | none => p)) = some (k, v) := by
  induction base with
  | nil => simp [objKeys] at hbk
  | cons b bs ih =>
    by_cases h : b.1 == k
    · have hb1 : b.1 = k := by simpa using h
      rw [List.map_cons, List.find?_cons]
      rw [hb1, hfind]
      simp
    · have hmem : k ∈ objKeys bs := by
        have h2 := hbk
        simp only [objKeys, List.map_cons, List.mem_cons] at h2
        rcases h2 with h1 | h1
        · exfalso; apply h; rw [h1]; simp
        · simpa [objKeys] using h1
      rw [List.map_cons]
      cases hx : List.find? (fun (q : String × JsVal) => q.1 == b.1) extra with
      | none =>
        simp only [hx]
        rw [List.find?_cons_of_neg]
        · exact ih hmem
        · simpa using h
      | some q =>
        simp only [hx]
        rw [List.find?_cons_of_neg]
        · exact ih hmem
        · simpa using h

/-- C10: because the row is spread after the derived fields, a source
column literally named one of the six derived keys overrides the derived
value: the record's value under that key is the raw cell value. -/
theorem C10_spreadOverride (row : Row) (i : Nat) (f t k : String)
    (c : Option String) (hk : k ∈ derivedKeys)
    (hc : List.find? (fun p => p.1 == k) row = some (k, c)) :
    objGet (mkDialObj row i f t) k = some (cellToVal c) := by
  have hfind2 : List.find? (fun q => q.1 == k) (rowToObj row) =
      some (k, cellToVal c) := by
    rw [find_rowToObj, hc]; rfl
  have hbk : k ∈ objKeys (dialBase row i f t) := by
    simpa [objKeys, dialBase, derivedKeys] using hk
  show objGet (spreadObj (dialBase row i f t) (rowToObj row)) k = _
  unfold spreadObj objGet
  rw [find?_append_eq]
  rw [find_mapped_base (dialBase row i f t) (rowToObj row) k (cellToVal c)
    hfind2 hbk]
  rfl

/-- Witness for C10: a workbook whose selected caller-id column is itself
named `from`; the produced record's `from` property is the raw cell text
`5550001111`, not the normalized `+15550001111` the row was filtered on. -/
theorem C10_spreadOverride_witness :
    objGet (mkDialObj [("from", some "5550001111"), ("to", some "5550002222")]
        0 "from" "to") "from" = some (JsVal.vstr "5550001111")
    ∧ normalizePhone (some "5550001111") = "+15550001111"
    ∧ dialRecords [[("from", some "5550001111"), ("to", some "5550002222")]]
        "from" "to" =
      [mkDialObj [("from", some "5550001111"), ("to", some "5550002222")]
        0 "from" "to"] := by
  refine ⟨?_, by decide, by decide⟩
  exact C10_spreadOverride [("from", some "5550001111"),
    ("to", some "5550002222")] 0 "from" "to" "from" (some "5550001111")
    (by decide) (by decide)

lemma keyMatches_derived : ∀ k ∈ derivedKeys, keyMatches k = false := by
  decide

lemma jsDisplayString_cellToVal (c : Option String) :
    jsDisplayString (cellToVal c) = cellDisplay c := by
  cases c <;> rfl

lemma findRowScript_skipAll (o : Obj)
    (h : ∀ p ∈ o, keyMatches p.1 = false) (b : Obj) :
    findRowScript (o ++ b) = findRowScript b := by
  induction o with
  | nil => rfl
  | cons p ps ih =>
    obtain ⟨k, v⟩ := p
    have hk : keyMatches k = false := h (k, v) (List.mem_cons_self _ _)
    have ht : ∀ q ∈ ps, keyMatches q.1 = false := fun q hq =>
      h q (List.mem_cons_of_mem _ hq)
    simp [findRowScript, hk, ih ht]

lemma mapped_dialBase_keyMatches (row : Row) (i : Nat) (f t : String) :
    ∀ p ∈ (dialBase row i f t).map (fun p =>
        match List.find? (fun q => q.1 == p.1) (rowToObj row) with
        | some q => (p.1, q.2)
        | none => p), keyMatches p.1 = false := by
  intro p hp
  simp only [List.mem_map] at hp
  obtain ⟨a, ha, rfl⟩ := hp
  have hfst : (match List.find? (fun (q : String × JsVal) => q.1 == a.1)
        (rowToObj row) with
      | some q => (a.1, q.2)
      | none => a).1 = a.1 := by
    cases hx : List.find? (fun (q : String × JsVal) => q.1 == a.1)
      (rowToObj row) <;> simp [hx]
  rw [hfst]
  have hkeys : a.1 ∈ derivedKeys := by
    have : a.1 ∈ objKeys (dialBase row i f t) := List.mem_map_of_mem _ ha
    simpa [objKeys, dialBase, derivedKeys] using this
  exact keyMatches_derived a.1 hkeys

lemma contains_derived_keyMatches (k : String)
    (h : derivedKeys.contains k = true) : keyMatches k = false := by
  have hm : k ∈ derivedKeys := by simpa using h
  exact keyMatches_derived k hm

lemma findRowScript_filtered (row : Row) (i : Nat) (f t : String) :
    findRowScript ((rowToObj row).filter
      (fun q => !((objKeys (dialBase row i f t)).contains q.1))) =
      findRowScriptClaim row := by
  induction row with
  | nil => rfl
  | cons p ps ih =>
    obtain ⟨k, c⟩ := p
    show findRowScript (((k, cellToVal c) :: rowToObj ps).filter _) = _
    by_cases hd : (objKeys (dialBase ((k, c) :: ps) i f t)).contains k
    · have hd' : derivedKeys.contains k = true := by
        simpa [objKeys, dialBase, derivedKeys] using hd
      have hkm : keyMatches k = false := contains_derived_keyMatches k hd'
      rw [List.filter_cons]
      simp only [hd, Bool.not_true, cond_false]
      show _ = findRowScriptClaim ((k, c) :: ps)
      rw [show findRowScriptClaim ((k, c) :: ps) = findRowScriptClaim ps by
        simp [findRowScriptClaim, hkm]]
      exact ih
    · have hd2 : ((objKeys (dialBase ((k, c) :: ps) i f t)).contains k)
          = false := by
        simpa using hd
      rw [List.filter_cons]
      simp only [hd2, Bool.not_false, cond_true]
      by_cases hm : keyMatches k
      · by_cases htext : jsTrim (cellDisplay c) == ""
        · rw [show findRowScriptClaim ((k, c) :: ps) = findRowScriptClaim ps
            by simp [findRowScriptClaim, hm, htext]]
          simp only [findRowScript, hm, if_true, jsDisplayString_cellToVal,
            htext]
          exact ih
        · have htext2 : (jsTrim (cellDisplay c) == "") = false := by
            simpa using htext
          simp [findRowScript, hm, jsDisplayString_cellToVal, htext2,
            findRowScriptClaim]
      · have hm2 : keyMatches k = false := by simpa using hm
        simp only [findRowScript, hm2, Bool.false_eq_true, if_false,
          findRowScriptClaim, Bool.false_and]
        exact ih

lemma findRowScript_mkDialObj (row : Row) (i : Nat) (f t : String) :
    findRowScript (mkDialObj row i f t) = findRowScriptClaim row := by
  show findRowScript (spreadObj (dialBase row i f t) (rowToObj row)) = _
  unfold spreadObj
  rw [findRowScript_skipAll _ (mapped_dialBase_keyMatches row i f t)]
  exact findRowScript_filtered row i f t

lemma findRowScriptClaim_ne_empty (row : Row) (s : String)
    (h : findRowScriptClaim row = some s) : (s == "") = false := by
  induction row with
  | nil => cases h
  | cons p ps ih =>
    obtain ⟨k, c⟩ := p
    by_cases hc : keyMatches k && !(jsTrim (cellDisplay c) == "")
    · rw [show findRowScriptClaim ((k, c) :: ps) =
          some (jsTrim (cellDisplay c)) by simp [findRowScriptClaim, hc]]
        at h
      cases h
      have := (Bool.and_eq_true _ _).mp hc
      simpa using this.2
    · rw [show findRowScriptClaim ((k, c) :: ps) = findRowScriptClaim ps by
        simp only [findRowScriptClaim]; rw [if_neg]; simpa using hc] at h
      exact ih h

/-- C7: for every dial record and global script text, the script placed in
the call payload is the first matching per-row field's trimmed text when
one exists, else the trimmed global script (empty when neither exists; the
endpoint treats an empty script as absent, as the third conjunct shows);
in particular a row with column `Notes` holding `Hello` beats the global
script `Goodbye`. -/
theorem C7_scriptResolution :
    (∀ (row : Row) (i : Nat) (f t g : String),
      (payloadOf g (mkDialObj row i f t)).script =
        (match findRowScriptClaim row with
         | some s => s
         | none => jsTrim g))
    ∧ (payloadOf "Goodbye"
        (mkDialObj [("A", some "+15550001111"), ("B", some "+15552223333"),
          ("Notes", some "Hello")] 0 "A" "B")).script = "Hello"
    ∧ (∀ env : TwilioEnv, buildTwiml env (some "") = buildTwiml env none) := by
  refine ⟨?_, by decide, fun env => rfl⟩
  intro row i f t g
  show resolveScript (mkDialObj row i f t) g = _
  unfold resolveScript
  rw [findRowScript_mkDialObj]
  cases h : findRowScriptClaim row with
  | none => rfl
  | some s => simp [jsOrStr, findRowScriptClaim_ne_empty row s h]

lemma beq_false_of_ne {k k' : String} (hne : k' ≠ k) : (k == k') = false := by
  rw [beq_eq_false_iff_ne]
  exact Ne.symm hne

lemma find?_map_replace_ne (k k' : String) (v : CallResult) (hne : k' ≠ k) :
    ∀ sm : StatusMap,
      List.find? (fun p => p.1 == k')
        (sm.map (fun p => if p.1 == k then (k, v) else p)) =
      List.find? (fun p => p.1 == k') sm := by
  intro sm
  induction sm with
  | nil => rfl
  | cons p ps ih =>
    rw [List.map_cons]
    by_cases hp : p.1 == k
    · have hp1 : p.1 = k := by simpa using hp
      simp only [hp, if_true]
      rw [List.find?_cons_of_neg, List.find?_cons_of_neg]
      · exact ih
      · show ¬(p.1 == k') = true
        rw [hp1, beq_false_of_ne hne]
        exact Bool.false_ne_true
      · show ¬((k, v).1 == k') = true
        show ¬(k == k') = true
        rw [beq_false_of_ne hne]
        exact Bool.false_ne_true
    · simp only [hp, if_false]
      by_cases hpk : p.1 == k'
      · rw [List.find?_cons_of_pos, List.find?_cons_of_pos]
        · simp
        · exact hpk
        · exact hpk
      · rw [List.find?_cons_of_neg, List.find?_cons_of_neg]
        · exact ih
        · simpa using hpk
        · simpa using hpk

lemma find?_map_replace_self (k : String) (v : CallResult) :
    ∀ sm : StatusMap, sm.any (fun p => p.1 == k) = true →
      List.find? (fun p => p.1 == k)
        (sm.map (fun p => if p.1 == k then (k, v) else p)) =
      some (k, v) := by
  intro sm
  induction sm with
  | nil => intro h; simp at h
  | cons p ps ih =>
    intro hany
    rw [List.map_cons]
    by_cases hp : p.1 == k
    · simp only [hp, if_true]
      rw [List.find?_cons_of_pos]
      simp
    · simp only [hp, if_false]
      rw [List.find?_cons_of_neg]
      · apply ih
        simpa [List.any_cons, hp] using hany
      · simpa using hp

lemma find?_mapSet_ne (sm : StatusMap) (k k' : String) (v : CallResult)
    (hne : k' ≠ k) :
    List.find? (fun p => p.1 == k') (mapSet sm k v) =
      List.find? (fun p => p.1 == k') sm := by
  unfold mapSet
  by_cases hany : sm.any (fun p => p.1 == k)
  · rw [if_pos hany]
    exact find?_map_replace_ne k k' v hne sm
  · rw [if_neg hany, find?_append_eq]
    cases hx : List.find? (fun p => p.1 == k') sm with
    | some q => simp [hx]
    | none =>
      simp only [hx]
      rw [List.find?_cons_of_neg]
      · rfl
      · show ¬((k, v).1 == k') = true
        show ¬(k == k') = true
        rw [beq_false_of_ne hne]
        exact Bool.false_ne_true

lemma lookupStatus_mapSet_ne (sm : StatusMap) (k k' : String)
    (v : CallResult) (hne : k' ≠ k) :
    lookupStatus (mapSet sm k v) k' = lookupStatus sm k' := by
  unfold lookupStatus
  rw [find?_mapSet_ne sm k k' v hne]

lemma find?_eq_none_of_any_eq_false (sm : StatusMap) (k : String)
    (h : sm.any (fun p => p.1 == k) = false) :
    List.find? (fun p => p.1 == k) sm = none := by
  induction sm with
  | nil => rfl
  | cons p ps ih =>
    simp only [List.any_cons, Bool.or_eq_false_iff] at h
    rw [List.find?_cons_of_neg]
    · exact ih h.2
    · simp [h.1]

lemma lookupStatus_mapSet_self (sm : StatusMap) (k : String)
    (v : CallResult) :
    lookupStatus (mapSet sm k v) k = some v := by
  unfold mapSet lookupStatus
  by_cases hany : sm.any (fun p => p.1 == k)
  · rw [if_pos hany, find?_map_replace_self k v sm hany]
    rfl
  · rw [if_neg hany, find?_append_eq,
      find?_eq_none_of_any_eq_false sm k (Bool.eq_false_iff.mpr hany)]
    have hone : List.find? (fun (p : String × CallResult) => p.1 == k)
        [(k, v)] = some (k, v) := by
      rw [List.find?_cons_of_pos]
      simp
    simp [hone]

lemma statusOf_mapSet_self (sm : StatusMap) (k : String) (v : CallResult) :
    statusOf (mapSet sm k v) k = some v.status := by
  unfold statusOf
  rw [lookupStatus_mapSet_self]
  rfl

lemma statusOf_mapSet_ne (sm : StatusMap) (k k' : String) (v : CallResult)
    (hne : k' ≠ k) :
    statusOf (mapSet sm k v) k' = statusOf sm k' := by
  unfold statusOf
  rw [lookupStatus_mapSet_ne sm k k' v hne]

lemma lookup_applyEvents_untouched (k : String) :
    ∀ (evs : List Event) (t : Nat) (sm : StatusMap),
      (∀ id u, Event.statusSet id u ∈ evs → id ≠ k) →
      lookupStatus (applyEvents t sm evs) k = lookupStatus sm k := by
  intro evs
  induction evs with
  | nil => intro t sm _; rfl
  | cons e es ih =>
    intro t sm h
    cases e with
    | statusSet id u =>
      have hid : id ≠ k := h id u (List.mem_cons_self _ _)
      have hrest : ∀ id' u', Event.statusSet id' u' ∈ es → id' ≠ k :=
        fun id' u' hm => h id' u' (List.mem_cons_of_mem _ hm)
      rw [show applyEvents t sm (Event.statusSet id u :: es) =
          applyEvents (t + 1) (applyEvent t sm (Event.statusSet id u)) es
          from rfl]
      rw [ih (t + 1) _ hrest]
      show lookupStatus (mapSet sm id _) k = _
      exact lookupStatus_mapSet_ne sm id k _ (fun hc => hid hc.symm)
    | request p =>
      exact ih (t + 1) sm (fun id' u' hm => h id' u'
        (List.mem_cons_of_mem _ hm))
    | pause ms =>
      exact ih (t + 1) sm (fun id' u' hm => h id' u'
        (List.mem_cons_of_mem _ hm))

/-- C4: for a record with truthy `from` and `to`, the Call Trigger's trace
is exactly: set status `calling`, issue the request, then set the final
status from the response — `success` carrying the call identifier for a
2xx body with a sid, `error` with the server-provided text (or the
generic `Call failed`) for a non-success response, and `error` with the
failure's message for a thrown network error. -/
theorem C4_triggerCall (r : Obj) (g : String) (outcome : FetchOutcome)
    (hf : jsFalsy (recField r "from") = false)
    (ht : jsFalsy (recField r "to") = false) :
    triggerCallEvents outcome g r =
      [Event.statusSet (recIdStr r) ⟨Status.calling, "Dialing...", none⟩,
       Event.request (payloadOf g r),
       (match outcome with
        | FetchOutcome.ok sid =>
            Event.statusSet (recIdStr r) ⟨Status.success,
              (match sid with
               | some s => "Call queued (SID: " ++ s ++ ")"
               | none => "Call queued"), some sid⟩
        | FetchOutcome.httpErr e =>
            Event.statusSet (recIdStr r)
              ⟨Status.error, e.getD "Call failed", none⟩
        | FetchOutcome.netErr m =>
            Event.statusSet (recIdStr r) ⟨Status.error, m, none⟩)] := by
  unfold triggerCallEvents
  simp [hf, ht]

/-- Witness for C4: a concrete dialable record and a 2xx outcome carrying
sid `CA123`. -/
theorem C4_triggerCall_witness :
    triggerCallEvents (FetchOutcome.ok (some "CA123")) ""
        (mkDialObj [("A", some "+15550001111"), ("B", some "+15552223333")]
          0 "A" "B") =
      [Event.statusSet "row-0" ⟨Status.calling, "Dialing...", none⟩,
       Event.request (payloadOf ""
         (mkDialObj [("A", some "+15550001111"), ("B", some "+15552223333")]
           0 "A" "B")),
       Event.statusSet "row-0" ⟨Status.success, "Call queued (SID: CA123)",
         some (some "CA123")⟩] := by
  have h := C4_triggerCall
    (mkDialObj [("A", some "+15550001111"), ("B", some "+15552223333")]
      0 "A" "B") "" (FetchOutcome.ok (some "CA123")) (by decide) (by decide)
  exact h.trans (by decide)

/-- C5: for a record with a falsy `from` or `to`, the Call Trigger
immediately records an `error` with message `Missing phone numbers`,
issues no request, and changes no other record's status-map entry. -/
theorem C5_missingNumbers (r : Obj) (g : String) (outcome : FetchOutcome)
    (h : (jsFalsy (recField r "from") || jsFalsy (recField r "to")) = true) :
    triggerCallEvents outcome g r =
      [Event.statusSet (recIdStr r)
        ⟨Status.error, "Missing phone numbers", none⟩]
    ∧ requestsOf (triggerCallEvents outcome g r) = []
    ∧ ∀ (t : Nat) (sm : StatusMap) (k : String), k ≠ recIdStr r →
        lookupStatus (applyEvents t sm (triggerCallEvents outcome g r)) k =
          lookupStatus sm k := by
  have heq : triggerCallEvents outcome g r =
      [Event.statusSet (recIdStr r)
        ⟨Status.error, "Missing phone numbers", none⟩] := by
    unfold triggerCallEvents
    simp [h]
  refine ⟨heq, by rw [heq]; rfl, ?_⟩
  intro t sm k hk
  rw [heq]
  apply lookup_applyEvents_untouched
  intro id u hm
  simp only [List.mem_singleton] at hm
  cases hm
  exact fun hc => hk hc.symm

/-- Witness for C5: a dialable record whose row also carries a null-valued
column literally named `from`, overriding the normalized number; the
trigger reports the missing-numbers error without any request, and an
unrelated key is untouched. -/
theorem C5_missingNumbers_witness :
    triggerCallEvents (FetchOutcome.ok none) ""
        (mkDialObj [("from", (none : Option String)),
          ("A", some "+15551230000"), ("B", some "+15551231111")]
          0 "A" "B") =
      [Event.statusSet "row-0"
        ⟨Status.error, "Missing phone numbers", none⟩]
    ∧ lookupStatus (applyEvents 0 []
        (triggerCallEvents (FetchOutcome.ok none) ""
          (mkDialObj [("from", (none : Option String)),
            ("A", some "+15551230000"), ("B", some "+15551231111")]
            0 "A" "B"))) "row-7" = none := by
  have h := C5_missingNumbers
    (mkDialObj [("from", (none : Option String)),
      ("A", some "+15551230000"), ("B", some "+15551231111")] 0 "A" "B")
    "" (FetchOutcome.ok none) (by decide)
  refine ⟨h.1.trans (by decide), ?_⟩
  rw [h.2.2 0 [] "row-7" (by decide)]
  rfl

lemma foldl_append_eq_flatMap {α β : Type} (f : α → List β) :
    ∀ (l : List α) (acc : List β),
      l.foldl (fun evs r => evs ++ f r) acc = acc ++ l.flatMap f := by
  intro l
  induction l with
  | nil => intro acc; simp
  | cons r rs ih =>
    intro acc
    simp only [List.foldl_cons, List.flatMap_cons]
    rw [ih]
    simp [List.append_assoc]

lemma handleDialAllEvents_eq (outcome : Obj → FetchOutcome) (g : String)
    (sm0 : StatusMap) (records : List Obj) :
    handleDialAllEvents outcome g sm0 records =
      records.flatMap (dialStep outcome g sm0) := by
  unfold handleDialAllEvents
  have hstep : (fun (evs : List Event) (r : Obj) =>
      if statusOf sm0 (recIdStr r) == some Status.success then evs
      else evs ++ (triggerCallEvents (outcome r) g r ++ [Event.pause 1500]))
      = (fun evs r => evs ++ dialStep outcome g sm0 r) := by
    funext evs r
    unfold dialStep
    by_cases h : statusOf sm0 (recIdStr r) == some Status.success <;>
      simp [h]
  rw [hstep, foldl_append_eq_flatMap]
  rfl

lemma requestsOf_append (a b : List Event) :
    requestsOf (a ++ b) = requestsOf a ++ requestsOf b := by
  simp [requestsOf, List.filterMap_append]

lemma requestsOf_trigger (o : FetchOutcome) (g : String) (r : Obj) :
    requestsOf (triggerCallEvents o g r) =
      if jsFalsy (recField r "from") || jsFalsy (recField r "to") then []
      else [payloadOf g r] := by
  unfold triggerCallEvents
  by_cases h : jsFalsy (recField r "from") || jsFalsy (recField r "to")
  · simp [h, requestsOf]
  · simp only [h, Bool.false_eq_true, if_false]
    cases o <;> simp [requestsOf]

lemma requestsOf_dialStep (outcome : Obj → FetchOutcome) (g : String)
    (sm0 : StatusMap) (r : Obj) :
    requestsOf (dialStep outcome g sm0 r) =
      if statusOf sm0 (recIdStr r) == some Status.success then []
      else if jsFalsy (recField r "from") || jsFalsy (recField r "to") then []
      else [payloadOf g r] := by
  unfold dialStep
  by_cases hs : statusOf sm0 (recIdStr r) == some Status.success
  · simp [hs, requestsOf]
  · simp only [hs, Bool.false_eq_true, if_false]
    rw [requestsOf_append, requestsOf_trigger]
    by_cases h : jsFalsy (recField r "from") || jsFalsy (recField r "to") <;>
      simp [h, requestsOf]

lemma statusSet_mem_trigger (o : FetchOutcome) (g : String) (r : Obj)
    (id : String) (u : CallUpdate)
    (h : Event.statusSet id u ∈ triggerCallEvents o g r) : id = recIdStr r := by
  unfold triggerCallEvents at h
  by_cases hg : jsFalsy (recField r "from") || jsFalsy (recField r "to")
  · simp [hg] at h
    exact h.1
  · simp only [hg, Bool.false_eq_true, if_false] at h
    cases o with
    | ok sid =>
      simp at h
      rcases h with ⟨h1, _⟩ | ⟨h1, _⟩ <;> exact h1
    | httpErr e =>
      simp at h
      rcases h with ⟨h1, _⟩ | ⟨h1, _⟩ <;> exact h1
    | netErr m =>
      simp at h
      rcases h with ⟨h1, _⟩ | ⟨h1, _⟩ <;> exact h1

lemma statusSet_mem_dialAll (outcome : Obj → FetchOutcome) (g : String)
    (sm0 : StatusMap) (records : List Obj) (id : String) (u : CallUpdate)
    (h : Event.statusSet id u ∈ handleDialAllEvents outcome g sm0 records) :
    ∃ r ∈ records,
      (statusOf sm0 (recIdStr r) == some Status.success) = false ∧
        id = recIdStr r := by
  rw [handleDialAllEvents_eq] at h
  rw [List.mem_flatMap] at h
  obtain ⟨r, hr, hmem⟩ := h
  refine ⟨r, hr, ?_⟩
  unfold dialStep at hmem
  by_cases hs : statusOf sm0 (recIdStr r) == some Status.success
  · simp [hs] at hmem
  · refine ⟨by simpa using hs, ?_⟩
    rw [if_neg hs] at hmem
    rw [List.mem_append] at hmem
    rcases hmem with hmem | hmem
    · exact statusSet_mem_trigger (outcome r) g r id u hmem
    · simp at hmem

lemma requests_dialAll (outcome : Obj → FetchOutcome) (g : String)
    (sm0 : StatusMap) :
    ∀ records : List Obj,
      requestsOf (handleDialAllEvents outcome g sm0 records) =
        (records.filter (fun r =>
          !(statusOf sm0 (recIdStr r) == some Status.success))).filterMap
          (fun r =>
            if jsFalsy (recField r "from") || jsFalsy (recField r "to") then
              none
            else some (payloadOf g r)) := by
  intro records
  rw [handleDialAllEvents_eq]
  induction records with
  | nil => rfl
  | cons r rs ih =>
    rw [List.flatMap_cons, requestsOf_append, ih, List.filter_cons]
    by_cases hs : statusOf sm0 (recIdStr r) == some Status.success
    · simp only [requestsOf_dialStep, hs, if_true, Bool.not_true, cond_false]
      rfl
    · have hs2 : (statusOf sm0 (recIdStr r) == some Status.success) = false :=
        by simpa using hs
      simp only [requestsOf_dialStep, hs2, Bool.false_eq_true, if_false,
        Bool.not_false, cond_true, List.filterMap_cons]
      by_cases hf : jsFalsy (recField r "from") || jsFalsy (recField r "to")
      · simp only [hf, if_true, if_false, List.nil_append,
          List.filterMap_cons]
      · have hf2 : (jsFalsy (recField r "from")
            || jsFalsy (recField r "to")) = false := by simpa using hf
        simp only [hf2, Bool.false_eq_true, if_false, if_true,
          List.filterMap_cons]
        simp [hf2]

/-- C3: the Queue Dialer.  (a) the re-entrancy guard makes a second run a
no-op; (b) one in-order pass: the issued requests are exactly one request
per record not already `success` in the snapshot (and with truthy
numbers), in original order; (c) each record's contribution is its
triggered call followed by the fixed 1500 ms pause; (d) with distinct
record ids, a record already `success` keeps its status untouched. -/
theorem C3_queueDialer (outcome : Obj → FetchOutcome) (g : String)
    (records : List Obj) (sm0 : StatusMap) (now : Nat)
    (hNodup : (records.map recIdStr).Nodup) :
    handleDialAll outcome g records sm0 true now = (sm0, [])
    ∧ requestsOf (handleDialAllEvents outcome g sm0 records) =
        (records.filter (fun r =>
          !(statusOf sm0 (recIdStr r) == some Status.success))).filterMap
          (fun r =>
            if jsFalsy (recField r "from") || jsFalsy (recField r "to") then
              none
            else some (payloadOf g r))
    ∧ handleDialAllEvents outcome g sm0 records =
        records.flatMap (fun r =>
          if statusOf sm0 (recIdStr r) == some Status.success then []
          else triggerCallEvents (outcome r) g r ++ [Event.pause 1500])
    ∧ (∀ r ∈ records, statusOf sm0 (recIdStr r) = some Status.success →
        statusOf (handleDialAll outcome g records sm0 false now).1
          (recIdStr r) = some Status.success) := by
  refine ⟨rfl, requests_dialAll outcome g sm0 records,
    handleDialAllEvents_eq outcome g sm0 records, ?_⟩
  intro r hr hsucc
  show statusOf (applyEvents now sm0
    (handleDialAllEvents outcome g sm0 records)) (recIdStr r) = _
  have huntouched : lookupStatus (applyEvents now sm0
      (handleDialAllEvents outcome g sm0 records)) (recIdStr r) =
      lookupStatus sm0 (recIdStr r) := by
    apply lookup_applyEvents_untouched
    intro id u hmem
    obtain ⟨r', hr', hskip', hid⟩ :=
      statusSet_mem_dialAll outcome g sm0 records id u hmem
    intro hc
    have : recIdStr r' = recIdStr r := by rw [← hid, hc]
    have heq : r' = r :=
      List.inj_on_of_nodup_map hNodup hr' hr this
    rw [heq] at hskip'
    rw [hsucc] at hskip'
    simp at hskip'
  unfold statusOf
  rw [huntouched]
  exact hsucc ▸ rfl

/-- Witness for C3: three dialable records derived from a workbook, the
middle one already `success`; the run issues exactly the first and third
records' requests, in order, and leaves the middle record's status
untouched. -/
theorem C3_queueDialer_witness :
    requestsOf (handleDialAllEvents (fun _ => FetchOutcome.ok (some "CAX"))
      "hi" [("row-1",
        ⟨Status.success, "Call queued", some "CA1", 5⟩)]
      (dialRecords
        [[("A", some "+15550000001"), ("B", some "+15550000002")],
         [("A", some "+15550000003"), ("B", some "+15550000004")],
         [("A", some "+15550000005"), ("B", some "+15550000006")]]
        "A" "B")) =
      [payloadOf "hi"
        (mkDialObj [("A", some "+15550000001"), ("B", some "+15550000002")]
          0 "A" "B"),
       payloadOf "hi"
        (mkDialObj [("A", some "+15550000005"), ("B", some "+15550000006")]
          2 "A" "B")]
    ∧ statusOf (handleDialAll (fun _ => FetchOutcome.ok (some "CAX")) "hi"
        (dialRecords
          [[("A", some "+15550000001"), ("B", some "+15550000002")],
           [("A", some "+15550000003"), ("B", some "+15550000004")],
           [("A", some "+15550000005"), ("B", some "+15550000006")]]
          "A" "B")
        [("row-1", ⟨Status.success, "Call queued", some "CA1", 5⟩)]
        false 9).1 "row-1" = some Status.success := by
  have h := C3_queueDialer (fun _ => FetchOutcome.ok (some "CAX")) "hi"
    (dialRecords
      [[("A", some "+15550000001"), ("B", some "+15550000002")],
       [("A", some "+15550000003"), ("B", some "+15550000004")],
       [("A", some "+15550000005"), ("B", some "+15550000006")]]
      "A" "B")
    [("row-1", ⟨Status.success, "Call queued", some "CA1", 5⟩)] 9
    (by decide)
  refine ⟨(h.2.1).trans (by decide), ?_⟩
  have h4 := h.2.2.2
    (mkDialObj [("A", some "+15550000003"), ("B", some "+15550000004")]
      1 "A" "B") (by decide) (by decide)
  exact h4

lemma noCalling_statusOf (sm : StatusMap) (h : noCallingB sm = true)
    (k : String) : (statusOf sm k == some Status.calling) = false := by
  unfold statusOf lookupStatus
  cases hx : List.find? (fun p => p.1 == k) sm with
  | none => rfl
  | some p =>
    have hmem : p ∈ sm := List.mem_of_find?_eq_some hx
    have hp := (List.all_eq_true.mp h) p hmem
    simp only [Option.map_some']
    have hps : (p.2.status == Status.calling) = false := by
      simpa using hp
    simpa using hps

lemma trigger_traceValid (o : FetchOutcome) (g : String) (r : Obj) (t : Nat)
    (sm : StatusMap)
    (h : ∀ k, (statusOf sm k == some Status.calling) = false) :
    traceValidWith okTransition t sm (triggerCallEvents o g r) = true := by
  unfold triggerCallEvents
  by_cases hg : jsFalsy (recField r "from") || jsFalsy (recField r "to")
  · simp [hg, traceValidWith, okTransition]
  · simp only [hg, Bool.false_eq_true, if_false]
    have h2 : ¬ statusOf sm (recIdStr r) = some Status.calling := by
      simpa using h (recIdStr r)
    have h1 : okTransition (statusOf sm (recIdStr r)) Status.calling = true :=
      by simp [okTransition, h (recIdStr r)]
    have hs1 : statusOf (applyEvent t sm (Event.statusSet (recIdStr r)
        ⟨Status.calling, "Dialing...", none⟩)) (recIdStr r) =
        some Status.calling := by
      show statusOf (mapSet sm (recIdStr r) _) (recIdStr r) = _
      rw [statusOf_mapSet_self]
      rfl
    cases o with
    | ok sid => simp [traceValidWith, h1, okTransition, hs1, h2]
    | httpErr e => simp [traceValidWith, h1, okTransition, hs1, h2]
    | netErr m => simp [traceValidWith, h1, okTransition, hs1, h2]

lemma trigger_preserves_noCalling (o : FetchOutcome) (g : String) (r : Obj)
    (t : Nat) (sm : StatusMap)
    (h : ∀ k, (statusOf sm k == some Status.calling) = false) :
    ∀ k, (statusOf (applyEvents t sm (triggerCallEvents o g r)) k ==
      some Status.calling) = false := by
  intro k
  unfold triggerCallEvents
  by_cases hg : jsFalsy (recField r "from") || jsFalsy (recField r "to")
  · simp only [hg, if_true]
    show (statusOf (applyEvent t sm (Event.statusSet (recIdStr r)
      ⟨Status.error, "Missing phone numbers", none⟩)) k ==
        some Status.calling) = false
    by_cases hk : k = recIdStr r
    · subst hk
      show (statusOf (mapSet sm (recIdStr r) _) (recIdStr r) ==
        some Status.calling) = false
      rw [statusOf_mapSet_self]
      rfl
    · show (statusOf (mapSet sm (recIdStr r) _) k ==
        some Status.calling) = false
      rw [statusOf_mapSet_ne _ _ _ _ hk]
      exact h k
  · simp only [hg, Bool.false_eq_true, if_false]
    by_cases hk : k = recIdStr r
    · subst hk
      cases o with
      | ok sid =>
        show (statusOf (mapSet _ (recIdStr r) _) (recIdStr r) ==
          some Status.calling) = false
        rw [statusOf_mapSet_self]
        rfl
      | httpErr e =>
        show (statusOf (mapSet _ (recIdStr r) _) (recIdStr r) ==
          some Status.calling) = false
        rw [statusOf_mapSet_self]
        rfl
      | netErr m =>
        show (statusOf (mapSet _ (recIdStr r) _) (recIdStr r) ==
          some Status.calling) = false
        rw [statusOf_mapSet_self]
        rfl
    · cases o with
      | ok sid =>
        show (statusOf (mapSet (mapSet sm (recIdStr r) _) (recIdStr r) _) k ==
          some Status.calling) = false
        rw [statusOf_mapSet_ne _ _ _ _ hk, statusOf_mapSet_ne _ _ _ _ hk]
        exact h k
      | httpErr e =>
        show (statusOf (mapSet (mapSet sm (recIdStr r) _) (recIdStr r) _) k ==
          some Status.calling) = false
        rw [statusOf_mapSet_ne _ _ _ _ hk, statusOf_mapSet_ne _ _ _ _ hk]
        exact h k
      | netErr m =>
        show (statusOf (mapSet (mapSet sm (recIdStr r) _) (recIdStr r) _) k ==
          some Status.calling) = false
        rw [statusOf_mapSet_ne _ _ _ _ hk, statusOf_mapSet_ne _ _ _ _ hk]
        exact h k

lemma applyEvents_append :
    ∀ (a b : List Event) (t : Nat) (sm : StatusMap),
      applyEvents t sm (a ++ b) =
        applyEvents (t + a.length) (applyEvents t sm a) b := by
  intro a
  induction a with
  | nil => intro b t sm; rfl
  | cons e es ih =>
    intro b t sm
    show applyEvents (t + 1) (applyEvent t sm e) (es ++ b) = _
    rw [ih]
    have hc : t + 1 + es.length = t + (es.length + 1) := by omega
    rw [hc]
    rfl

lemma traceValid_append (rel : Option Status → Status → Bool) :
    ∀ (a b : List Event) (t : Nat) (sm : StatusMap),
      traceValidWith rel t sm (a ++ b) =
        (traceValidWith rel t sm a &&
          traceValidWith rel (t + a.length) (applyEvents t sm a) b) := by
  intro a
  induction a with
  | nil => intro b t sm; simp [traceValidWith, applyEvents]
  | cons e es ih =>
    intro b t sm
    have hc : t + 1 + es.length = t + (es.length + 1) := by omega
    cases e with
    | statusSet id u =>
      simp only [List.cons_append, traceValidWith, List.length_cons,
        List.append_eq]
      rw [ih, ← hc, Bool.and_assoc]
      rfl
    | request p =>
      simp only [List.cons_append, traceValidWith, List.length_cons,
        List.append_eq]
      rw [ih, ← hc]
      rfl
    | pause ms =>
      simp only [List.cons_append, traceValidWith, List.length_cons,
        List.append_eq]
      rw [ih, ← hc]
      rfl

lemma dialAll_traceValid (outcome : Obj → FetchOutcome) (g : String)
    (sm0 : StatusMap) :
    ∀ (records : List Obj) (t : Nat) (sm : StatusMap),
      (∀ k, (statusOf sm k == some Status.calling) = false) →
      traceValidWith okTransition t sm
        (records.flatMap (dialStep outcome g sm0)) = true := by
  intro records
  induction records with
  | nil => intro t sm _; rfl
  | cons r rs ih =>
    intro t sm h
    rw [List.flatMap_cons, traceValid_append, Bool.and_eq_true]
    constructor
    · unfold dialStep
      by_cases hs : statusOf sm0 (recIdStr r) == some Status.success
      · simp [hs, traceValidWith]
      · rw [if_neg hs, traceValid_append, Bool.and_eq_true]
        exact ⟨trigger_traceValid (outcome r) g r t sm h,
          by simp [traceValidWith]⟩
    · apply ih
      unfold dialStep
      by_cases hs : statusOf sm0 (recIdStr r) == some Status.success
      · simp only [hs, if_true]
        show ∀ k, (statusOf (applyEvents _ sm []) k ==
          some Status.calling) = false
        exact h
      · rw [if_neg hs]
        rw [applyEvents_append]
        intro k
        show (statusOf (applyEvents _
          (applyEvents t sm (triggerCallEvents (outcome r) g r)) [_]) k ==
            some Status.calling) = false
        show (statusOf (applyEvents t sm
          (triggerCallEvents (outcome r) g r)) k ==
            some Status.calling) = false
        exact trigger_preserves_noCalling (outcome r) g r t sm h k

/-- C6 (amended): starting from any state with no record stuck in
`calling`, every status transition performed by a Call Trigger run or a
Queue Dialer run lies in the relation `idle → calling → {success, error}`
with redial back to `calling`, extended by the missing-numbers guard's
direct move to `error` from any status.  (The claim as frozen omits the
direct-to-`error` guard transition; see the counterexample.) -/
theorem C6_statusTransitions (o : FetchOutcome) (outcome : Obj → FetchOutcome)
    (g : String) (r : Obj) (records : List Obj) (sm : StatusMap) (t : Nat)
    (h : noCallingB sm = true) :
    traceValidWith okTransition t sm (triggerCallEvents o g r) = true
    ∧ traceValidWith okTransition t sm
        (handleDialAllEvents outcome g sm records) = true := by
  have hP : ∀ k, (statusOf sm k == some Status.calling) = false :=
    noCalling_statusOf sm h
  constructor
  · exact trigger_traceValid o g r t sm hP
  · rw [handleDialAllEvents_eq]
    exact dialAll_traceValid outcome g sm records t sm hP

/-- Witness for C6: a fresh-looking map with one `error` record passes the
no-`calling` condition, and a triggered call's trace validates. -/
theorem C6_statusTransitions_witness :
    noCallingB [("row-3", ⟨Status.error, "failed", none, 2⟩)] = true
    ∧ traceValidWith okTransition 0
        [("row-3", ⟨Status.error, "failed", none, 2⟩)]
        (triggerCallEvents (FetchOutcome.ok (some "CA2")) ""
          (mkDialObj [("A", some "+15550001111"),
            ("B", some "+15552223333")] 0 "A" "B")) = true :=
  ⟨by decide,
    (C6_statusTransitions (FetchOutcome.ok (some "CA2"))
      (fun _ => FetchOutcome.ok (some "CA2")) ""
      (mkDialObj [("A", some "+15550001111"), ("B", some "+15552223333")]
        0 "A" "B") []
      [("row-3", ⟨Status.error, "failed", none, 2⟩)] 0 (by decide)).1⟩

/-- Counterexample to C6 as frozen: a record the code itself derives (a
dialable row whose null-valued column literally named `from` shadows the
derived field) makes a fresh queue run set its status to `error` directly
from `idle` — a transition outside `idle → calling → {success, error}`
with redial. -/
theorem C6_cex :
    (dialRecords [[("from", (none : Option String)),
      ("A", some "+15551230000"), ("B", some "+15551231111")]]
      "A" "B").length = 1
    ∧ traceValidWith claimTransition 0 []
        (handleDialAllEvents (fun _ => FetchOutcome.ok none) "" []
          (dialRecords [[("from", (none : Option String)),
            ("A", some "+15551230000"), ("B", some "+15551231111")]]
            "A" "B")) = false :=
  ⟨by decide, by decide⟩

/-- C8 (amended): the Call API Endpoint.  Absent credentials give a 500
whose error text is `Missing Twilio credentials` (the frozen claim quotes
`Missing credentials`; see the counterexample); an unparseable body gives
400; a blank trimmed `from` or `to` gives 400; provider success gives 200
with `{sid}`; and every 400/500 response body has the `{error}` shape. -/
theorem C8_endpoint (env : TwilioEnv) (body : Option CallRequest)
    (provider : CallParams → Except String String) :
    ((env.accountSid == "" || env.authToken == "") = true →
      postRoute env body provider =
        ⟨500, RespBody.err "Missing Twilio credentials"⟩)
    ∧ ((env.accountSid == "" || env.authToken == "") = false →
        body = none →
        postRoute env body provider = ⟨400, RespBody.err "Invalid JSON body"⟩)
    ∧ (∀ p, (env.accountSid == "" || env.authToken == "") = false →
        body = some p →
        (((p.fromField.map jsTrim).getD "" == "")
          || ((p.toField.map jsTrim).getD "" == "")) = true →
        (postRoute env body provider).status = 400 ∧
          isErrBody (postRoute env body provider).body = true)
    ∧ (∀ p sid, (env.accountSid == "" || env.authToken == "") = false →
        body = some p →
        (((p.fromField.map jsTrim).getD "" == "")
          || ((p.toField.map jsTrim).getD "" == "")) = false →
        provider (callParamsOf env p) = Except.ok sid →
        postRoute env body provider = ⟨200, RespBody.okSid sid⟩)
    ∧ (((postRoute env body provider).status = 400 ∨
        (postRoute env body provider).status = 500) →
        isErrBody (postRoute env body provider).body = true) := by
  refine ⟨?_, ?_, ?_, ?_, ?_⟩
  · intro hcred
    unfold postRoute
    rw [if_pos hcred]
  · intro hcred hb
    unfold postRoute
    rw [if_neg (by simp [hcred]), hb]
  · intro p hcred hb hempty
    rw [hb]
    unfold postRoute
    rw [if_neg (by simp [hcred])]
    simp [hempty, isErrBody]
  · intro p sid hcred hb hnonempty hprov
    rw [hb]
    unfold postRoute
    rw [if_neg (by simp [hcred])]
    simp [hnonempty, hprov]
  · intro hstatus
    unfold postRoute at hstatus ⊢
    by_cases hcred : (env.accountSid == "" || env.authToken == "") = true
    · rw [if_pos hcred]
      rfl
    · rw [if_neg hcred] at hstatus ⊢
      cases body with
      | none => rfl
      | some p =>
        by_cases hempty : (((p.fromField.map jsTrim).getD "" == "")
            || ((p.toField.map jsTrim).getD "" == "")) = true
        · simp [hempty, isErrBody]
        · have hempty2 : (((p.fromField.map jsTrim).getD "" == "")
              || ((p.toField.map jsTrim).getD "" == "")) = false := by
            simpa using hempty
          cases hx : provider (callParamsOf env p) with
          | ok sid => simp [hempty2, hx] at hstatus
          | error msg => simp [hempty2, hx, isErrBody]

/-- Witness for C8: a configured environment, a valid body, and a provider
returning sid `CA9` give `200 {sid: CA9}`; an unset environment gives the
500 credentials error. -/
theorem C8_endpoint_witness :
    postRoute ⟨"AC1", "tok", "", "", ""⟩
        (some ⟨some " +15550001111 ", some "+15552223333", none⟩)
        (fun _ => Except.ok "CA9") =
      ⟨200, RespBody.okSid "CA9"⟩
    ∧ postRoute ⟨"", "tok", "", "", ""⟩ none (fun _ => Except.ok "CA9") =
      ⟨500, RespBody.err "Missing Twilio credentials"⟩ :=
  ⟨(C8_endpoint ⟨"AC1", "tok", "", "", ""⟩
      (some ⟨some " +15550001111 ", some "+15552223333", none⟩)
      (fun _ => Except.ok "CA9")).2.2.2.1
      ⟨some " +15550001111 ", some "+15552223333", none⟩ "CA9"
      (by decide) rfl (by decide) rfl,
   (C8_endpoint ⟨"", "tok", "", "", ""⟩ none
      (fun _ => Except.ok "CA9")).1 (by decide)⟩

/-- Counterexample to C8 as frozen: with credentials absent the response
error text is `Missing Twilio credentials`, not the claimed
`Missing credentials`. -/
theorem C8_cex :
    postRoute ⟨"", "", "", "", ""⟩ none (fun _ => Except.error "boom") =
      ⟨500, RespBody.err "Missing Twilio credentials"⟩
    ∧ RespBody.err "Missing Twilio credentials" ≠
      RespBody.err "Missing credentials" :=
  ⟨by decide, by decide⟩

/-- C9 (amended): the voice instruction passed to the provider.  A
non-blank script yields only the escaped speak document (no URL); with the
script absent, the configured URL is passed when present and,
independently, the escaped fallback document when configured — both are
passed when both are configured, which is where the frozen claim's
either/or reading fails (see the counterexample); with neither, nothing
is sent.  The five XML metacharacters are escaped, as the `<Tom & Jerry>`
instance shows. -/
theorem C9_voice (env : TwilioEnv) (p : CallRequest) :
    ((callParamsOf env p).url, (callParamsOf env p).twiml) =
      amendedNineVoice env p.script
    ∧ escapeForTwiml "<Tom & Jerry>" = "&lt;Tom &amp; Jerry&gt;"
    ∧ (∀ s : String, jsTrim s ≠ "" → p.script = some s →
        (callParamsOf env p).url = none ∧
          (callParamsOf env p).twiml = some (speakDoc (jsTrim s))) := by
  refine ⟨rfl, by decide, ?_⟩
  intro s hs hps
  have hsne : s ≠ "" := fun he => hs (by rw [he]; rfl)
  have hse : (s == "") = false := by simpa using hsne
  have hst : (jsTrim s == "") = false := by simpa using hs
  constructor
  · show (if !(env.voiceUrl == "") && (p.script.getD "" == "") then
      some env.voiceUrl else none) = none
    rw [hps]
    simp [hse]
  · show buildTwiml env p.script = _
    rw [hps]
    unfold buildTwiml
    simp only [Option.map_some', Option.getD_some]
    rw [if_neg (by simp [hst])]

/-- Witness for C9: with a script present, the provider call carries only
the escaped speak document and no URL even though a URL is configured. -/
theorem C9_voice_witness :
    (callParamsOf ⟨"AC1", "tok", "https://voice.example", "fb", ""⟩
      ⟨some "+15550001111", some "+15552223333", some "Hi"⟩).url = none
    ∧ (callParamsOf ⟨"AC1", "tok", "https://voice.example", "fb", ""⟩
      ⟨some "+15550001111", some "+15552223333", some "Hi"⟩).twiml =
      some (speakDoc (jsTrim "Hi")) :=
  (C9_voice ⟨"AC1", "tok", "https://voice.example", "fb", ""⟩
    ⟨some "+15550001111", some "+15552223333", some "Hi"⟩).2.2 "Hi"
    (by decide) rfl

/-- Counterexample to C9 as frozen: with both a voice URL and a fallback
message configured and no script, the provider call carries both the URL
and the fallback document, while the claim's resolution order says only
the URL is used. -/
theorem C9_cex :
    ((callParamsOf ⟨"AC1", "tok", "https://voice.example", "fb msg", ""⟩
        ⟨some "+15550001111", some "+15552223333", none⟩).url,
      (callParamsOf ⟨"AC1", "tok", "https://voice.example", "fb msg", ""⟩
        ⟨some "+15550001111", some "+15552223333", none⟩).twiml) ≠
      claimNineVoice ⟨"AC1", "tok", "https://voice.example", "fb msg", ""⟩
        none
    ∧ (callParamsOf ⟨"AC1", "tok", "https://voice.example", "fb msg", ""⟩
        ⟨some "+15550001111", some "+15552223333", none⟩).url =
      some "https://voice.example"
    ∧ (callParamsOf ⟨"AC1", "tok", "https://voice.example", "fb msg", ""⟩
        ⟨some "+15550001111", some "+15552223333", none⟩).twiml =
      some (speakDoc "fb msg")
    ∧ claimNineVoice ⟨"AC1", "tok", "https://voice.example", "fb msg", ""⟩
        none = (some "https://voice.example", none) :=
  ⟨by decide, by decide, by decide, by decide⟩

end AgenticDialer
